import Mathlib

/-!
Verification of the Story-Retelling reading-toolkit generator
(`src/index.tsx`), a client-side React application.

Two parts of the program carry the logic the specification describes:

* the `SequenceCards` drag-and-drop board (state: `slots`, `pool`,
  `draggedItem`; operations `handleDragStart`, `handleDropOnSlot`,
  `handleDropOnPool`, `handleReset`, and the mount-time `useEffect`
  initialisation);
* the `handleGenerate` pipeline (one structured-content request, one hero
  image request, then one image request per sequence event), together with
  the `extractImage` helper.

The embedding below translates those functions into pure Lean functions.
React `useState` setters become record updates; the nondeterministic
`[...].sort(() => Math.random() - 0.5)` shuffle becomes an explicit
`shuffled` list parameter (a JavaScript sort always produces some
permutation of its input, so theorems constrain it with `List.Perm`);
each network `await` becomes an `Except` parameter supplying either the
response or the thrown error; `JSON.parse(...) as ToolkitData` becomes a
`parse` oracle parameter (`JSON.parse` throws on invalid JSON and returns
the decoded value otherwise, with no schema check in the client code).
JavaScript array writes at an out-of-range index extend the array with
holes; `jsSet` models that, with holes rendered as `none` (a hole reads
back as `undefined`, which is falsy exactly like `null`).
-/

/-- Sequence event card (`ToolkitData['sequenceEvents'][0]` in the source):
id, chronological order, caption text, image prompt, optional image URL. -/
structure SeqEvent where
  id : String
  order : Int
  text : String
  imagePrompt : String
  imageUrl : Option String
deriving DecidableEq, Inhabited

/-- A WH-question of the toolkit (type tag, question, answer). -/
structure Question where
  type : String
  question : String
  answer : String
deriving DecidableEq, Inhabited

/-- The inference exercise of the toolkit. -/
structure Inference where
  scenario : String
  starter : String
  reasonStarter : String
deriving DecidableEq, Inhabited

/-- The `ToolkitData` interface of the source. -/
structure ToolkitData where
  childName : String
  title : String
  storyText : String
  storyImageUrl : Option String
  visualStyle : String
  questions : List Question
  sequenceEvents : List SeqEvent
  inference : Inference
deriving DecidableEq, Inhabited

/-! ### The drag-and-drop board (`SequenceCards` component) -/

/-- Origin of a drag: the `'pool' | 'slot'` tag of `draggedItem.source`. -/
inductive DragSource where
  | pool
  | slot
deriving DecidableEq

/-- The `draggedItem` record `{ item, source, index }` of the source. -/
structure DraggedItem (α : Type) where
  item : α
  source : DragSource
  index : Nat
deriving DecidableEq

/-- The board state of `SequenceCards`: the `slots` array (normally four
entries, each `null` or a card; JavaScript lets it grow on an
out-of-range write), the `pool` array, and the transient `draggedItem`.
The card type is a parameter `α`; the program instantiates it with
`SeqEvent`. -/
structure Board (α : Type) where
  slots : List (Option α)
  pool : List α
  draggedItem : Option (DraggedItem α)
deriving DecidableEq

/-- JavaScript array element assignment `a[i] = v`: in range it replaces
the element; past the end it extends the array, filling the gap with
holes (modelled as `none`, since a hole reads back falsy like `null`). -/
def jsSet {α : Type} (l : List (Option α)) (i : Nat) (v : Option α) :
    List (Option α) :=
  if i < l.length then l.set i v
  else l ++ List.replicate (i - l.length) none ++ [v]

/-- The source's `handleDragStart`: record the drag transaction; slots and
pool are untouched. -/
def handleDragStart {α : Type} (item : α) (source : DragSource) (index : Nat)
    (b : Board α) : Board α :=
  { b with draggedItem := some ⟨item, source, index⟩ }

/-- The source's `handleDropOnSlot`, translated line by line: if no drag is
active, do nothing; otherwise read the target occupant
(`newSlots[targetSlotIndex]`, read before any removal), remove the dragged
card from its origin (`splice` for pool origin, `= null` for slot origin),
append the occupant — when there was one — to the pool, write the dragged
card into the target slot, and clear the transaction. -/
def handleDropOnSlot {α : Type} (targetSlotIndex : Nat) (b : Board α) :
    Board α :=
  match b.draggedItem with
  | none => b
  | some draggedItem =>
    let targetItem : Option α := b.slots.getD targetSlotIndex none
    let newSlots :=
      match draggedItem.source with
      | DragSource.pool => b.slots
      | DragSource.slot => jsSet b.slots draggedItem.index none
    let newPool :=
      match draggedItem.source with
      | DragSource.pool => b.pool.eraseIdx draggedItem.index
      | DragSource.slot => b.pool
    let newPool :=
      match targetItem with
      | some t => newPool ++ [t]
      | none => newPool
    let newSlots := jsSet newSlots targetSlotIndex (some draggedItem.item)
    { slots := newSlots, pool := newPool, draggedItem := none }

/-- The source's `handleDropOnPool`: no active drag means no change; a
pool-origin drag returns early (before the `setDraggedItem(null)` line, so
the transaction is left in place); a slot-origin drag clears the slot,
appends the card to the pool, and clears the transaction. -/
def handleDropOnPool {α : Type} (b : Board α) : Board α :=
  match b.draggedItem with
  | none => b
  | some draggedItem =>
    match draggedItem.source with
    | DragSource.pool => b
    | DragSource.slot =>
      { slots := jsSet b.slots draggedItem.index none
        pool := b.pool ++ [draggedItem.item]
        draggedItem := none }

/-- The source's `handleReset`: four empty slots and a re-shuffled pool.
The result of the randomised sort is passed in as `shuffled`; it is some
permutation of the card set. Only `setSlots` and `setPool` are called, so
`draggedItem` keeps its value. -/
def handleReset {α : Type} (shuffled : List α) (b : Board α) : Board α :=
  { slots := [none, none, none, none], pool := shuffled
    draggedItem := b.draggedItem }

/-- The `useEffect` initialisation of `SequenceCards`, run when the card
set changes: identical body to `handleReset` (shuffle into the pool, clear
the slots), and again without touching `draggedItem`. -/
def initializeBoard {α : Type} (shuffled : List α) (b : Board α) : Board α :=
  { slots := [none, none, none, none], pool := shuffled
    draggedItem := b.draggedItem }

/-- All cards currently on the board: the occupied slots followed by the
pool. -/
def placedCards {α : Type} (b : Board α) : List α :=
  b.slots.filterMap id ++ b.pool

/-- The spec's board invariant: every card of the source set occurs in
exactly one location (one slot or the pool). -/
def boardInvariant {α : Type} [DecidableEq α] (cards : List α)
    (b : Board α) : Prop :=
  ∀ c ∈ cards, (placedCards b).count c = 1

instance {α : Type} [DecidableEq α] (cards : List α) (b : Board α) :
    Decidable (boardInvariant cards b) := by
  unfold boardInvariant; infer_instance

/-- Board states reachable through the user interface, for a fixed card
set: the mount-time initialisation (with some shuffle), then any number of
drag starts (of a card actually present at the given origin, when no drag
is active), drops on one of the four rendered slots, drops on the pool,
and resets. -/
inductive Reachable {α : Type} (cards : List α) : Board α → Prop where
  | init : ∀ shuffled : List α, shuffled.Perm cards →
      Reachable cards ⟨[none, none, none, none], shuffled, none⟩
  | dragFromPool : ∀ (b : Board α) (i : Nat) (c : α), Reachable cards b →
      b.draggedItem = none → b.pool.get? i = some c →
      Reachable cards (handleDragStart c DragSource.pool i b)
  | dragFromSlot : ∀ (b : Board α) (i : Nat) (c : α), Reachable cards b →
      b.draggedItem = none → b.slots.get? i = some (some c) →
      Reachable cards (handleDragStart c DragSource.slot i b)
  | dropSlot : ∀ (b : Board α) (i : Nat), Reachable cards b → i < 4 →
      Reachable cards (handleDropOnSlot i b)
  | dropPool : ∀ b : Board α, Reachable cards b →
      Reachable cards (handleDropOnPool b)
  | reset : ∀ (b : Board α) (shuffled : List α), Reachable cards b →
      shuffled.Perm cards → Reachable cards (handleReset shuffled b)

/-! ### The generation pipeline (`handleGenerate` and `extractImage`) -/

/-- The `inlineData` field of a response part. Both fields are optional:
the source tests them for JavaScript truthiness, under which an empty
string counts as absent. -/
structure InlineData where
  mimeType : Option String
  data : Option String
deriving DecidableEq, Inhabited

/-- One part of a response candidate's content. -/
structure ImgPart where
  inlineData : Option InlineData
deriving DecidableEq, Inhabited

/-- The `content` of a response candidate; `parts` may be absent
(the source guards it with `candidate.content?.parts || []`). -/
structure ImgContent where
  parts : Option (List ImgPart)
deriving DecidableEq, Inhabited

/-- One candidate of an image-model response; `content` may be absent. -/
structure ImgCandidate where
  content : Option ImgContent
deriving DecidableEq, Inhabited

/-- An image-model response; `candidates` may be absent
(the source guards it with `response.candidates || []`). -/
structure ImgResponse where
  candidates : Option (List ImgCandidate)
deriving DecidableEq, Inhabited

/-- The text-model response; only its `text` field is read. `text` is
`none` for an absent field, and the source also treats an empty string as
failure (`if (!textResponse.text)`). -/
structure TextResponse where
  text : Option String
deriving DecidableEq, Inhabited

/-- The image check of `extractImage` on one part: `part.inlineData &&
part.inlineData.data` must be truthy, and the returned data URI uses
`part.inlineData.mimeType || 'image/png'`. -/
def partImage (p : ImgPart) : Option String :=
  match p.inlineData with
  | none => none
  | some d =>
    match d.data with
    | none => none
    | some payload =>
      if payload = "" then none
      else
        let mime :=
          match d.mimeType with
          | none => "image/png"
          | some m => if m = "" then "image/png" else m
        some ("data:" ++ mime ++ ";base64," ++ payload)

/-- The source's `extractImage`: scan the candidates and their parts in
order and return the first inline image payload as a data URI, or
`undefined` when there is none. -/
def extractImage (response : ImgResponse) : Option String :=
  (response.candidates.getD []).findSome? fun candidate =>
    ((candidate.content.bind ImgContent.parts).getD []).findSome? partImage

/-- The `initialData.sequenceEvents.map((e, idx) => ({...e, id:
`evt-${Date.now()}-${idx}`}))` step of `handleGenerate`; `now` stands for
`Date.now()` and the first argument below it is the running index. -/
def assignIds (now : Nat) : Nat → List SeqEvent → List SeqEvent
  | _, [] => []
  | idx, e :: rest =>
      { e with id := "evt-" ++ toString now ++ "-" ++ toString idx }
        :: assignIds now (idx + 1) rest

/-- The sequential illustration loop of `handleGenerate`: for each event,
await its image request; on success store `extractImage` of the response
in `imageUrl`, on a thrown error keep the event unchanged (the error is
caught, logged, and the loop continues). `seqImgCall i` supplies the
outcome of the request for event index `i`. -/
def illustrateEvents (seqImgCall : Nat → Except String ImgResponse) :
    Nat → List SeqEvent → List SeqEvent
  | _, [] => []
  | i, e :: rest =>
      (match seqImgCall i with
        | Except.ok r => { e with imageUrl := extractImage r }
        | Except.error _ => e) :: illustrateEvents seqImgCall (i + 1) rest

/-- The source's `handleGenerate` pipeline, with every network interaction
supplied as a parameter: `textCall` is the structured-content request
(`Except.error` models a thrown transport error), `parse` is
`JSON.parse` applied to the response text (`Except.error` models the
`SyntaxError` thrown on invalid JSON; no schema validation happens in the
client, the value is cast), `storyImgCall` the hero image request and
`seqImgCall` the per-event image requests. The result is the final value
of the `toolkitData` state (the function stores `null` there before the
first request, so earlier toolkits never survive a failed run) paired
with the error caught by the outer `catch` (`none` when the run reached
the end; a caught error triggers the `alert`). -/
def handleGenerate (childName : String) (now : Nat)
    (textCall : Except String TextResponse)
    (parse : String → Except String ToolkitData)
    (storyImgCall : Except String ImgResponse)
    (seqImgCall : Nat → Except String ImgResponse) :
    Option ToolkitData × Option String :=
  match textCall with
  | Except.error e => (none, some e)
  | Except.ok textResponse =>
    match textResponse.text with
    | none => (none, some "No text generated")
    | some s =>
      if s = "" then (none, some "No text generated")
      else
        match parse s with
        | Except.error e => (none, some e)
        | Except.ok initialData =>
          let eventsWithIds := assignIds now 0 initialData.sequenceEvents
          let dataWithIds :=
            { initialData with
                sequenceEvents := eventsWithIds, childName := childName }
          match storyImgCall with
          | Except.error e => (some dataWithIds, some e)
          | Except.ok storyImgResponse =>
            let storyImgUrl := extractImage storyImgResponse
            let dataWithStoryImg :=
              { dataWithIds with storyImageUrl := storyImgUrl }
            let updatedEvents :=
              illustrateEvents seqImgCall 0 dataWithStoryImg.sequenceEvents
            (some { dataWithStoryImg with sequenceEvents := updatedEvents },
              none)

/-! ### Concrete sample values used by witness theorems -/

/-- Concrete sequence event for witnesses; the generator supplies no
`id` and no `imageUrl`, so both are absent. -/
def sampleEvent (k : Nat) : SeqEvent :=
  { id := "", order := Int.ofNat k, text := "cap", imagePrompt := "prompt",
    imageUrl := none }

/-- Concrete well-formed toolkit content with four events, as the schema
requests. -/
def sampleData : ToolkitData :=
  { childName := "", title := "T", storyText := "S", storyImageUrl := none,
    visualStyle := "V", questions := []
    sequenceEvents := [sampleEvent 1, sampleEvent 2, sampleEvent 3,
      sampleEvent 4]
    inference := ⟨"sc", "I think...", "Because..."⟩ }

/-- Hero response with an empty candidate list: no inline payload. -/
def heroNoImage : ImgResponse := ⟨some []⟩

/-- Image response holding one inline payload. -/
def sampleImgResponse : ImgResponse :=
  ⟨some [⟨some ⟨some [⟨some ⟨some "image/png", some "AAA"⟩⟩]⟩⟩]⟩

/-- Per-event image calls where the request for event index 2 throws and
every other request returns a payload-bearing response. -/
def sampleSeqCall (i : Nat) : Except String ImgResponse :=
  if i = 2 then Except.error "boom" else Except.ok sampleImgResponse

/-- Toolkit content violating the schema's counts: three sequence events
and zero questions. Its JSON serialisation is a string on which
`JSON.parse` succeeds, so the `parse` oracle returning it models a real
content response. -/
def badContent : ToolkitData :=
  { childName := "", title := "T", storyText := "S", storyImageUrl := none,
    visualStyle := "V", questions := []
    sequenceEvents := [sampleEvent 1, sampleEvent 2, sampleEvent 3]
    inference := ⟨"sc", "I think...", "Because..."⟩ }

/-! ### Helper lemmas -/

lemma jsSet_length {α : Type} (l : List (Option α)) (i : Nat)
    (v : Option α) : (jsSet l i v).length = max l.length (i + 1) := by
  unfold jsSet
  split
  · rw [List.length_set, Nat.max_eq_left (by omega)]
  · rw [Nat.max_eq_right (by omega)]
    simp only [List.length_append, List.length_replicate, List.length_cons,
      List.length_nil]
    omega

lemma jsSet_ne_nil {α : Type} (l : List (Option α)) (i : Nat)
    (v : Option α) : jsSet l i v ≠ [] := by
  intro h
  have h1 := jsSet_length l i v
  rw [h] at h1
  simp only [List.length_nil] at h1
  have h2 : i + 1 ≤ max l.length (i + 1) := Nat.le_max_right _ _
  omega

lemma getD_zero_jsSet {α : Type} (l : List (Option α)) (v : Option α)
    (h : l ≠ []) : (jsSet l 0 v).getD 0 none = v := by
  cases l with
  | nil => exact absurd rfl h
  | cons a t => simp [jsSet]

lemma not_mem_eraseIdx_of_count_one {α : Type} [DecidableEq α] :
    ∀ (l : List α) (k : Nat) (b : α), l.get? k = some b → l.count b = 1 →
      b ∉ l.eraseIdx k := by
  intro l
  induction l with
  | nil => intro k b hk _; simp at hk
  | cons a t ih =>
    intro k b hk hc
    cases k with
    | zero =>
      simp only [List.get?] at hk
      injection hk with hk
      subst hk
      have hcz : t.count a = 0 := by
        rw [List.count_cons_self] at hc; omega
      simpa [List.eraseIdx] using List.count_eq_zero.mp hcz
    | succ k =>
      simp only [List.get?] at hk
      have hbt : b ∈ t := List.get?_mem hk
      have hne : a ≠ b := by
        intro h
        subst h
        have hpos : 0 < t.count a := List.count_pos_iff.mpr hbt
        rw [List.count_cons_self] at hc
        omega
      have hct : t.count b = 1 := by
        rwa [List.count_cons_of_ne (fun h => hne h.symm)] at hc
      simp only [List.eraseIdx, List.mem_cons, not_or]
      exact ⟨fun h => hne h.symm, ih k b hk hct⟩

lemma assignIds_length (now : Nat) :
    ∀ (j : Nat) (l : List SeqEvent), (assignIds now j l).length = l.length
    := by
  intro j l
  induction l generalizing j with
  | nil => simp [assignIds]
  | cons e rest ih => simp [assignIds, ih]

lemma illustrateEvents_length (call : Nat → Except String ImgResponse) :
    ∀ (j : Nat) (l : List SeqEvent),
      (illustrateEvents call j l).length = l.length := by
  intro j l
  induction l generalizing j with
  | nil => simp [illustrateEvents]
  | cons e rest ih => simp [illustrateEvents, ih]

lemma assignIds_get? (now : Nat) :
    ∀ (l : List SeqEvent) (j i : Nat),
      (assignIds now j l).get? i
        = (l.get? i).map fun e =>
            { e with
                id := "evt-" ++ toString now ++ "-" ++ toString (j + i) }
    := by
  intro l
  induction l with
  | nil => intro j i; simp [assignIds]
  | cons e rest ih =>
    intro j i
    cases i with
    | zero => simp [assignIds, List.get?]
    | succ i =>
      simp only [assignIds, List.get?]
      rw [ih (j + 1) i]
      have harith : j + 1 + i = j + (i + 1) := by omega
      rw [harith]

lemma illustrateEvents_get? (call : Nat → Except String ImgResponse) :
    ∀ (l : List SeqEvent) (j i : Nat),
      (illustrateEvents call j l).get? i
        = (l.get? i).map fun e =>
            match call (j + i) with
            | Except.ok r => { e with imageUrl := extractImage r }
            | Except.error _ => e := by
  intro l
  induction l with
  | nil => intro j i; simp [illustrateEvents]
  | cons e rest ih =>
    intro j i
    cases i with
    | zero => simp [illustrateEvents, List.get?]
    | succ i =>
      simp only [illustrateEvents, List.get?]
      rw [ih (j + 1) i]
      have harith : j + 1 + i = j + (i + 1) := by omega
      rw [harith]

/-! ### Claims about the board -/

/-- C1: the claim states that every reachable board state observed with no
drag in flight satisfies the one-location invariant. The code violates it:
placing a card in slot 0, then dragging it from slot 0 and dropping it
back on slot 0, leaves the card in slot 0 and also appends it to the pool
(`handleDropOnSlot` reads the target occupant before clearing the origin
slot and never checks that the occupant is the dragged card itself). The
witness state below is reachable, has no drag in flight, and holds card 1
twice. -/
theorem reachable_board_violates_invariant :
    ∃ b : Board Nat, Reachable [1, 2, 3, 4] b ∧ b.draggedItem = none ∧
      ¬ boardInvariant [1, 2, 3, 4] b := by
  refine ⟨_,
    Reachable.dropSlot _ 0
      (Reachable.dragFromSlot _ 0 1
        (Reachable.dropSlot _ 0
          (Reachable.dragFromPool _ 0 1
            (Reachable.init [1, 2, 3, 4] (List.Perm.refl _)) rfl rfl)
          (by omega))
        rfl rfl)
      (by omega), rfl, by decide⟩

/-- C2: the claim states that dragging the card of slot 0 and dropping it
on slot 0 leaves slots and pool unchanged. The code instead appends the
card to the pool while also writing it back into slot 0, duplicating it:
the pool grows from `[2, 3, 4]` to `[2, 3, 4, 1]`. -/
theorem dropOnSelf_duplicates_card :
    handleDropOnSlot 0
        (⟨[some 1, none, none, none], [2, 3, 4],
          some ⟨1, DragSource.slot, 0⟩⟩ : Board Nat)
      = ⟨[some 1, none, none, none], [2, 3, 4, 1], none⟩ ∧
    (1 : Nat) ∈ (handleDropOnSlot 0
        (⟨[some 1, none, none, none], [2, 3, 4],
          some ⟨1, DragSource.slot, 0⟩⟩ : Board Nat)).pool ∧
    (handleDropOnSlot 0
        (⟨[some 1, none, none, none], [2, 3, 4],
          some ⟨1, DragSource.slot, 0⟩⟩ : Board Nat)).slots.getD 0 none
      = some 1 := by decide

/-- C3: dropping card `B`, dragged from pool position `k`, onto slot 0
that holds card `A` puts `B` into slot 0, removes `B` from the pool, and
appends `A` to the end of the pool; afterwards `B` is no longer in the
pool and the transaction is cleared. The count hypothesis reflects that a
card occurs at most once on the board, and `A ≠ B` that `A` was not in
the pool while sitting in slot 0. -/
theorem dropOnSlot_swaps_occupant_to_pool {α : Type} [DecidableEq α]
    (A B : α) (s1 s2 s3 : Option α) (pool : List α) (k : Nat)
    (hk : pool.get? k = some B) (hcount : pool.count B = 1) (hAB : A ≠ B) :
    handleDropOnSlot 0
        ⟨[some A, s1, s2, s3], pool, some ⟨B, DragSource.pool, k⟩⟩
      = ⟨[some B, s1, s2, s3], pool.eraseIdx k ++ [A], none⟩ ∧
    B ∉ pool.eraseIdx k ++ [A] := by
  constructor
  · simp [handleDropOnSlot, jsSet]
  · simp only [List.mem_append, List.mem_singleton, not_or]
    exact ⟨not_mem_eraseIdx_of_count_one pool k B hk hcount,
      fun h => hAB h.symm⟩

theorem dropOnSlot_swaps_occupant_to_pool_witness :
    handleDropOnSlot 0
        (⟨[some 1, none, none, none], [2, 3],
          some ⟨2, DragSource.pool, 0⟩⟩ : Board Nat)
      = ⟨[some 2, none, none, none], List.eraseIdx [2, 3] 0 ++ [1], none⟩ ∧
    (2 : Nat) ∉ List.eraseIdx [2, 3] 0 ++ [1] :=
  dropOnSlot_swaps_occupant_to_pool 1 2 none none none [2, 3] 0 rfl
    (by decide) (by decide)

/-- C4 counterexample: the claim states that after `dropOnPool` the drag
transaction is always cleared. For a pool-origin drag the handler returns
before `setDraggedItem(null)`, so the transaction survives. -/
theorem dropOnPool_pool_origin_transaction_survives :
    (handleDropOnPool
        (⟨[none, none, none, none], [5], some ⟨5, DragSource.pool, 0⟩⟩ :
          Board Nat)).draggedItem = some ⟨5, DragSource.pool, 0⟩ := by decide

/-- C4 amended: for a pool-origin drag, `dropOnPool` is a complete no-op —
slots and pool are unchanged, and the drag transaction is also left in
place (it is cleared only on the slot-origin path). -/
theorem dropOnPool_pool_origin_noop {α : Type} (b : Board α)
    (d : DraggedItem α) (hd : b.draggedItem = some d)
    (hs : d.source = DragSource.pool) : handleDropOnPool b = b := by
  obtain ⟨item, src, idx⟩ := d
  cases hs
  simp [handleDropOnPool, hd]

theorem dropOnPool_pool_origin_noop_witness :
    handleDropOnPool
        (⟨[none, none, none, none], [5], some ⟨5, DragSource.pool, 0⟩⟩ :
          Board Nat)
      = ⟨[none, none, none, none], [5], some ⟨5, DragSource.pool, 0⟩⟩ :=
  dropOnPool_pool_origin_noop _ ⟨5, DragSource.pool, 0⟩ rfl rfl

/-- C5 counterexample: the claim states that `dropOnSlot` bound-checks the
target index and no-ops outside `0..3`. The code does not: dropping a
pool card on index 4 removes it from the pool and writes it at slots
index 4 (JavaScript extends the array), so the card is in none of the
four rendered slots and not in the pool — it is lost from the visible
board rather than kept in place. -/
theorem dropOnSlot_out_of_range_loses_card :
    handleDropOnSlot 4
        (⟨[none, none, none, none], [7], some ⟨7, DragSource.pool, 0⟩⟩ :
          Board Nat)
      = ⟨[none, none, none, none, some 7], [], none⟩ ∧
    (handleDropOnSlot 4
        (⟨[none, none, none, none], [7], some ⟨7, DragSource.pool, 0⟩⟩ :
          Board Nat)).slots.take 4 = [none, none, none, none] ∧
    (7 : Nat) ∉ (handleDropOnSlot 4
        (⟨[none, none, none, none], [7], some ⟨7, DragSource.pool, 0⟩⟩ :
          Board Nat)).pool := by decide

/-- C5 amended: `dropOnSlot` performs no bound check. For a pool-origin
drag and any target index `t ≥ 4` on a four-entry slots array, it removes
the card from the pool and stores it at index `t`, extending the slots
array with empty entries; it does not fault, but it is not a no-op and
the card leaves the four visible slots and the pool. -/
theorem dropOnSlot_out_of_range_extends_slots {α : Type} (b : Board α)
    (c : α) (k t : Nat) (hlen : b.slots.length = 4) (ht : 4 ≤ t)
    (hd : b.draggedItem = some ⟨c, DragSource.pool, k⟩) :
    handleDropOnSlot t b
      = ⟨b.slots ++ List.replicate (t - 4) none ++ [some c],
         b.pool.eraseIdx k, none⟩ := by
  have htarget : b.slots[t]? = none := List.getElem?_eq_none (by omega)
  have hnotlt : ¬ t < b.slots.length := by omega
  have hnotlt4 : ¬ t < 4 := by omega
  simp [handleDropOnSlot, hd, htarget, jsSet, hnotlt, hnotlt4, hlen]

theorem dropOnSlot_out_of_range_extends_slots_witness :
    handleDropOnSlot 5
        (⟨[none, none, none, none], [7], some ⟨7, DragSource.pool, 0⟩⟩ :
          Board Nat)
      = ⟨[none, none, none, none] ++ List.replicate (5 - 4) none
           ++ [some 7], List.eraseIdx [7] 0, none⟩ :=
  dropOnSlot_out_of_range_extends_slots _ 7 0 5 rfl (by omega) rfl

/-- C9: for any board, `reset` (with any shuffle that permutes the card
set) yields all-empty slots and a pool that is a permutation of the full
card set, so the board invariant holds; running `reset` twice in a row
(possibly with a different shuffle order) does the same. -/
theorem reset_restores_invariant {α : Type} [DecidableEq α] (b : Board α)
    (cards shuffled1 shuffled2 : List α) (h1 : shuffled1.Perm cards)
    (h2 : shuffled2.Perm cards) (hnodup : cards.Nodup) :
    (handleReset shuffled1 b).slots = [none, none, none, none] ∧
    (handleReset shuffled1 b).pool.Perm cards ∧
    boardInvariant cards (handleReset shuffled1 b) ∧
    (handleReset shuffled2 (handleReset shuffled1 b)).slots
      = [none, none, none, none] ∧
    boardInvariant cards (handleReset shuffled2 (handleReset shuffled1 b))
    := by
  have key : ∀ (b' : Board α) (sh : List α), sh.Perm cards →
      boardInvariant cards (handleReset sh b') := by
    intro b' sh hsh c hc
    have hplaced : placedCards (handleReset sh b') = sh := by
      simp [handleReset, placedCards]
    unfold boardInvariant at *
    rw [hplaced, hsh.count_eq]
    exact List.count_eq_one_of_mem hnodup hc
  exact ⟨rfl, h1, key b shuffled1 h1, rfl, key _ shuffled2 h2⟩

theorem reset_restores_invariant_witness :
    (handleReset [4, 3, 2, 1]
        (⟨[some 1, some 2, none, none], [3, 4], none⟩ : Board Nat)).slots
      = [none, none, none, none] ∧
    (handleReset [4, 3, 2, 1]
        (⟨[some 1, some 2, none, none], [3, 4], none⟩ :
          Board Nat)).pool.Perm [1, 2, 3, 4] ∧
    boardInvariant [1, 2, 3, 4]
      (handleReset [4, 3, 2, 1]
        (⟨[some 1, some 2, none, none], [3, 4], none⟩ : Board Nat)) ∧
    (handleReset [1, 2, 3, 4]
        (handleReset [4, 3, 2, 1]
          (⟨[some 1, some 2, none, none], [3, 4], none⟩ :
            Board Nat))).slots = [none, none, none, none] ∧
    boardInvariant [1, 2, 3, 4]
      (handleReset [1, 2, 3, 4]
        (handleReset [4, 3, 2, 1]
          (⟨[some 1, some 2, none, none], [3, 4], none⟩ : Board Nat))) :=
  reset_restores_invariant _ [1, 2, 3, 4] [4, 3, 2, 1] [1, 2, 3, 4]
    (by decide) (by decide) (by decide)

/-- C10: `reset` and the initialisation effect replace only slots and
pool; the drag-transaction field keeps its value, so a transaction that
was active stays active, and dropping it on slot 0 of the freshly reset
board really places the stale card there. -/
theorem reset_preserves_draggedItem {α : Type} (b : Board α)
    (shuffled : List α) (d : DraggedItem α) (hd : b.draggedItem = some d) :
    (handleReset shuffled b).draggedItem = some d ∧
    (initializeBoard shuffled b).draggedItem = some d ∧
    (handleDropOnSlot 0 (handleReset shuffled b)).slots.getD 0 none
      = some d.item := by
  refine ⟨by simp [handleReset, hd], by simp [initializeBoard, hd], ?_⟩
  obtain ⟨item, src, idx⟩ := d
  cases src with
  | pool => simp [handleDropOnSlot, handleReset, hd, jsSet]
  | slot =>
    have hne : jsSet ([none, none, none, none] : List (Option α)) idx none
        ≠ [] := jsSet_ne_nil _ _ _
    simp only [handleDropOnSlot, handleReset, hd, List.getD_cons_zero]
    exact getD_zero_jsSet _ _ hne

theorem reset_preserves_draggedItem_witness :
    (handleReset [1, 2, 3]
        (⟨[some 9, none, none, none], [1, 2, 3],
          some ⟨9, DragSource.slot, 0⟩⟩ : Board Nat)).draggedItem
      = some ⟨9, DragSource.slot, 0⟩ ∧
    (initializeBoard [1, 2, 3]
        (⟨[some 9, none, none, none], [1, 2, 3],
          some ⟨9, DragSource.slot, 0⟩⟩ : Board Nat)).draggedItem
      = some ⟨9, DragSource.slot, 0⟩ ∧
    (handleDropOnSlot 0
        (handleReset [1, 2, 3]
          (⟨[some 9, none, none, none], [1, 2, 3],
            some ⟨9, DragSource.slot, 0⟩⟩ :
              Board Nat))).slots.getD 0 none
      = some (DraggedItem.item ⟨9, DragSource.slot, 0⟩) :=
  reset_preserves_draggedItem _ [1, 2, 3] ⟨9, DragSource.slot, 0⟩ rfl

/-! ### Claims about the generation pipeline -/

/-- C7: when the structured-content response carries no text (absent or
empty, both falsy in the source's `if (!textResponse.text)` test), the
run throws the explicit `"No text generated"` error, which the outer
catch surfaces; the final toolkit state is the `null` stored before the
request, so no toolkit is displayed. The image-call parameters are
universally quantified, so the result is independent of them: the run
aborts before any illustration phase. -/
theorem empty_text_rejects_run (childName : String) (now : Nat)
    (parse : String → Except String ToolkitData)
    (storyImgCall : Except String ImgResponse)
    (seqImgCall : Nat → Except String ImgResponse) (tr : TextResponse)
    (h : tr.text = none ∨ tr.text = some "") :
    handleGenerate childName now (Except.ok tr) parse storyImgCall
        seqImgCall = (none, some "No text generated") := by
  rcases h with h | h <;> simp [handleGenerate, h]

theorem empty_text_rejects_run_witness :
    handleGenerate "kid" 0 (Except.ok ⟨none⟩) (fun _ => Except.error "p")
        (Except.error "q") (fun _ => Except.error "r")
      = (none, some "No text generated") :=
  empty_text_rejects_run "kid" 0 _ _ _ ⟨none⟩ (Or.inl rfl)

/-- C6: when content generation succeeds, a hero response without an
inline image payload leaves `storyImageUrl` unset but the toolkit is
still published; in the per-event illustration loop a thrown request
leaves that event's `imageUrl` unset (`none`, its parsed value) while an
event whose request returns a response gets `imageUrl :=
extractImage` of that response (set whenever the response carries a
payload); and the run reaches the end with no caught error. -/
theorem pipeline_partial_failure (childName : String) (now : Nat)
    (tr : TextResponse) (s : String) (data : ToolkitData)
    (parse : String → Except String ToolkitData) (heroResp : ImgResponse)
    (seqImgCall : Nat → Except String ImgResponse)
    (htext : tr.text = some s) (hs : s ≠ "")
    (hparse : parse s = Except.ok data)
    (hhero : extractImage heroResp = none)
    (hclean : ∀ e ∈ data.sequenceEvents, e.imageUrl = none) :
    ∃ d : ToolkitData,
      handleGenerate childName now (Except.ok tr) parse
          (Except.ok heroResp) seqImgCall = (some d, none) ∧
      d.storyImageUrl = none ∧
      d.sequenceEvents.length = data.sequenceEvents.length ∧
      (∀ i err, seqImgCall i = Except.error err →
        (d.sequenceEvents.get? i).map SeqEvent.imageUrl
          = (data.sequenceEvents.get? i).map fun _ => none) ∧
      (∀ i r, seqImgCall i = Except.ok r →
        (d.sequenceEvents.get? i).map SeqEvent.imageUrl
          = (data.sequenceEvents.get? i).map fun _ => extractImage r)
    := by
  simp only [handleGenerate, htext, hparse, if_neg hs]
  refine ⟨_, rfl, by simp [hhero], ?_, ?_, ?_⟩
  · simp only
    rw [illustrateEvents_length, assignIds_length]
  · intro i err herr
    simp only
    rw [illustrateEvents_get?, assignIds_get? now data.sequenceEvents 0 i]
    cases hge : data.sequenceEvents.get? i with
    | none => simp
    | some e =>
      simp only [Option.map_some, Nat.zero_add, herr]
      have himg : e.imageUrl = none := hclean e (List.get?_mem hge)
      simp [himg]
  · intro i r hok
    simp only
    rw [illustrateEvents_get?, assignIds_get? now data.sequenceEvents 0 i]
    cases hge : data.sequenceEvents.get? i with
    | none => simp
    | some e => simp [Nat.zero_add, hok]

theorem pipeline_partial_failure_witness :
    (handleGenerate "kid" 0 (Except.ok ⟨some "j"⟩)
        (fun _ => Except.ok sampleData) (Except.ok heroNoImage)
        sampleSeqCall).2 = none ∧
    (handleGenerate "kid" 0 (Except.ok ⟨some "j"⟩)
        (fun _ => Except.ok sampleData) (Except.ok heroNoImage)
        sampleSeqCall).1.isSome = true := by
  obtain ⟨d, hd, -⟩ := pipeline_partial_failure "kid" 0 ⟨some "j"⟩ "j"
    sampleData (fun _ => Except.ok sampleData) heroNoImage sampleSeqCall
    rfl (by decide) rfl rfl (by decide)
  exact ⟨by rw [hd], by rw [hd]; rfl⟩

/-- C8 counterexample: the claim states that a payload without exactly 4
questions and 4 sequence events is never accepted. The client performs no
schema validation (`JSON.parse(...) as ToolkitData` is a cast), so a
parsed payload with three events and no questions is published as toolkit
content and the run finishes with no error. -/
theorem nonconforming_payload_accepted :
    Option.map List.length
        (Option.map ToolkitData.sequenceEvents
          (handleGenerate "kid" 0 (Except.ok ⟨some "x"⟩)
              (fun _ => Except.ok badContent) (Except.ok heroNoImage)
              (fun _ => Except.ok heroNoImage)).1) = some 3 ∧
    Option.map List.length
        (Option.map ToolkitData.questions
          (handleGenerate "kid" 0 (Except.ok ⟨some "x"⟩)
              (fun _ => Except.ok badContent) (Except.ok heroNoImage)
              (fun _ => Except.ok heroNoImage)).1) = some 0 ∧
    (handleGenerate "kid" 0 (Except.ok ⟨some "x"⟩)
        (fun _ => Except.ok badContent) (Except.ok heroNoImage)
        (fun _ => Except.ok heroNoImage)).2 = none := by decide

/-- C8 amended: the run fails only when the response carries no text or
`JSON.parse` throws; any value that parses is accepted as toolkit
content, whatever its shape — the published toolkit keeps the parsed
title, question list, and event count. Schema conformance is delegated
to the generation service via `responseSchema`. -/
theorem parsed_payload_always_accepted (childName : String) (now : Nat)
    (tr : TextResponse) (s : String) (data : ToolkitData)
    (parse : String → Except String ToolkitData)
    (storyImgCall : Except String ImgResponse)
    (seqImgCall : Nat → Except String ImgResponse)
    (htext : tr.text = some s) (hs : s ≠ "")
    (hparse : parse s = Except.ok data) :
    ∃ d : ToolkitData,
      (handleGenerate childName now (Except.ok tr) parse storyImgCall
          seqImgCall).1 = some d ∧
      d.title = data.title ∧
      d.sequenceEvents.length = data.sequenceEvents.length ∧
      d.questions = data.questions := by
  simp only [handleGenerate, htext, hparse, if_neg hs]
  cases storyImgCall with
  | error e =>
    refine ⟨_, rfl, rfl, ?_, rfl⟩
    simp only
    rw [assignIds_length]
  | ok r =>
    refine ⟨_, rfl, rfl, ?_, rfl⟩
    simp only
    rw [illustrateEvents_length, assignIds_length]

theorem parsed_payload_always_accepted_witness :
    (handleGenerate "kid" 0 (Except.ok ⟨some "x"⟩)
        (fun _ => Except.ok badContent) (Except.error "img")
        (fun _ => Except.error "img")).1.isSome = true := by
  obtain ⟨d, hd, -⟩ := parsed_payload_always_accepted "kid" 0 ⟨some "x"⟩
    "x" badContent (fun _ => Except.ok badContent) (Except.error "img")
    (fun _ => Except.error "img") rfl (by decide) rfl
  rw [hd]; rfl
